import Mathlib

/-!
Verification of the goal-wise-saver financial core against its specification.

The TypeScript services are shallowly embedded:
* JS numbers are modeled as exact rationals (`ℚ`);
* calendar dates are modeled at day granularity as integers (`ℤ`), with the
  `YYYY-MM` month key of a date string carried as a separate `String` field
  where the source filters by string prefix;
* timestamps (`Date.getTime()` milliseconds) are modeled as rationals;
* presentation-only string fields (titles, messages, action items) are omitted;
* `localStorage`-backed collections are modeled as explicit lists threaded
  through the functions, so each service becomes a pure state transformer.
-/

namespace SmartSaver

/-- JS `Math.round`: rounds halves toward positive infinity, i.e.
`Math.round x = ⌊x + 1/2⌋`; written through `Rat.num`/`Rat.den` so that it
kernel-reduces on concrete inputs. -/
def jsRound (x : ℚ) : ℤ := (x + 1/2).num / ((x + 1/2).den : ℤ)

theorem jsRound_eq_floor (x : ℚ) : jsRound x = ⌊x + 1/2⌋ := by
  unfold jsRound
  rw [Rat.floor_def]

theorem jsRound_intCast (k : ℤ) : jsRound (k : ℚ) = k := by
  have h0 : ⌊(1 : ℚ)/2⌋ = 0 := by
    rw [Int.floor_eq_zero_iff]
    constructor <;> norm_num
  rw [jsRound_eq_floor, Int.floor_int_add, h0]
  omega

/-- `Math.round(x * 100) / 100`, the 2-decimal rounding used throughout the code. -/
def round2 (x : ℚ) : ℚ := (jsRound (x * 100) : ℚ) / 100

/-! ## Projection engine (`projectionService.ts`, `calculateFutureValue`) -/

structure ProjectionParams where
  currentPrincipal : ℚ
  monthlyContribution : ℚ
  annualRate : ℚ
  years : ℚ
deriving Repr, DecidableEq

structure ProjectionResult where
  futureValue : ℚ
  formula : String
  generatedAt : String
deriving Repr, DecidableEq

/-- The `=FV(...)` Excel-style formula string emitted by `calculateFutureValue`.
Digit formatting (`toFixed(2)`) is abstracted to `toString` of the exact rational. -/
def fvFormula (annualRate : ℚ) (months : ℤ) (monthlyContribution currentPrincipal : ℚ) : String :=
  "=FV(" ++ toString (annualRate * 100) ++ "%/12, " ++ toString months ++ ", -" ++
    toString monthlyContribution ++ ", -" ++ toString currentPrincipal ++ ", 0)"

/-- Embedding of `calculateFutureValue`.  `now` stands for the formatted
current-time string used for `generatedAt`. -/
def calculateFutureValue (now : String) (p : ProjectionParams) : ProjectionResult :=
  let monthlyRate := p.annualRate / 12
  let months : ℤ := max 0 (jsRound (p.years * 12))
  if months = 0 then
    { futureValue := round2 p.currentPrincipal
      formula := fvFormula p.annualRate months p.monthlyContribution p.currentPrincipal
      generatedAt := now }
  else
    let fvOfContributions :=
      if monthlyRate = 0 then p.monthlyContribution * (months : ℚ)
      else p.monthlyContribution * ((1 + monthlyRate) ^ months.toNat - 1) / monthlyRate
    let fvOfPrincipal := p.currentPrincipal * (1 + monthlyRate) ^ months.toNat
    { futureValue := round2 (fvOfContributions + fvOfPrincipal)
      formula := fvFormula p.annualRate months p.monthlyContribution p.currentPrincipal
      generatedAt := now }

theorem round2_of_cents (k : ℤ) : round2 ((k : ℚ) / 100) = (k : ℚ) / 100 := by
  unfold round2
  have h : ((k : ℚ) / 100) * 100 = (k : ℚ) := by field_simp
  rw [h, jsRound_intCast]

/-- C3 (counterexample): the claim says the zero-months branch returns
`currentPrincipal` exactly, but the code rounds to 2 decimal places:
for `currentPrincipal = 1/200 = 0.005` and `years = 0` the returned
`futureValue` is `0.01 ≠ 0.005`. -/
theorem C3_futureValue_not_exact_counterexample :
    jsRound ((0 : ℚ) * 12) = 0 ∧
      (calculateFutureValue "t" ⟨1/200, 0, 0, 0⟩).futureValue = 1/100 ∧
      (calculateFutureValue "t" ⟨1/200, 0, 0, 0⟩).futureValue ≠ 1/200 := by
  refine ⟨?_, ?_, ?_⟩ <;> norm_num [calculateFutureValue, round2, jsRound]

/-- C3 (amended): for every input with `round(years * 12) = 0`,
`calculateFutureValue` returns `currentPrincipal` rounded to 2 decimal places
(so exactly `currentPrincipal` whenever the principal is a whole number of
cents), and the result carries the formula string and the `generatedAt`
timestamp. -/
theorem C3_zero_months_projection (now : String) (p : ProjectionParams)
    (h : jsRound (p.years * 12) = 0) :
    calculateFutureValue now p =
      { futureValue := round2 p.currentPrincipal
        formula := fvFormula p.annualRate 0 p.monthlyContribution p.currentPrincipal
        generatedAt := now } ∧
    (∀ k : ℤ, p.currentPrincipal = (k : ℚ) / 100 →
      (calculateFutureValue now p).futureValue = p.currentPrincipal) := by
  have hm : max 0 (jsRound (p.years * 12)) = 0 := by omega
  constructor
  · simp [calculateFutureValue, hm]
  · intro k hk
    simp [calculateFutureValue, hm, hk]
    exact round2_of_cents k

/-- Witness for C3: a concrete zero-years input evaluates to the rounded principal. -/
theorem C3_zero_months_projection_witness :
    (calculateFutureValue "now" ⟨5, 3, 1/10, 0⟩).futureValue = 5 := by
  have h := (C3_zero_months_projection "now" ⟨5, 3, 1/10, 0⟩ (by norm_num [jsRound])).1
  rw [h]
  norm_num [round2, jsRound]

/-- C8: for every input with `round(years * 12) ≤ 0` (in particular every
negative `years`), the month count is clamped to 0 and the function returns
through the zero-months branch: the principal rounded to 2 decimals together
with the formula string and timestamp; the compound-growth power is never
evaluated. -/
theorem C8_negative_duration_guard (now : String) (p : ProjectionParams)
    (h : jsRound (p.years * 12) ≤ 0) :
    calculateFutureValue now p =
      { futureValue := round2 p.currentPrincipal
        formula := fvFormula p.annualRate 0 p.monthlyContribution p.currentPrincipal
        generatedAt := now } := by
  have hm : max 0 (jsRound (p.years * 12)) = 0 := by omega
  simp [calculateFutureValue, hm]

/-- Witness for C8: a concrete negative-years input returns the rounded principal. -/
theorem C8_negative_duration_guard_witness :
    (calculateFutureValue "now" ⟨100, 7, 1/20, -3⟩).futureValue = 100 := by
  have h := C8_negative_duration_guard "now" ⟨100, 7, 1/20, -3⟩ (by norm_num [jsRound])
  rw [h]
  norm_num [round2, jsRound]

/-! ## Financial data model (`types/financial.ts`), restricted to the fields the
core logic reads.  Amounts are `ℚ`, calendar days are `ℤ`, month keys are the
`YYYY-MM` prefix of the date string. -/

inductive ExpenseCategory
  | food | transport | entertainment | shopping | bills | healthcare | education | other
deriving Repr, DecidableEq

structure Expense where
  id : String
  amount : ℚ
  category : ExpenseCategory
  date : ℤ
  month : String
deriving Repr, DecidableEq

structure SavingActivity where
  id : String
  date : ℤ
  netSavings : ℚ
  isManualSavingDay : Bool
  goalContributions : List (String × ℚ)
deriving Repr, DecidableEq

inductive ChallengeType
  | noSpendWeekend | reduceCategory | saveAmount | expenseLimit
deriving Repr, DecidableEq

inductive ChallengeStatus
  | active | completed | failed | expired
deriving Repr, DecidableEq

structure Challenge where
  id : String
  type : ChallengeType
  category : Option ExpenseCategory
  targetAmount : Option ℚ
  targetReduction : Option ℚ
  startDate : ℤ
  endDate : ℤ
  status : ChallengeStatus
  progress : ℚ
deriving Repr, DecidableEq

/-- JS `Date.prototype.getDay` on a day number: day 0 of the epoch
(1970-01-01) was a Thursday, so `getDay d = (d + 4) mod 7` with Sunday = 0. -/
def jsGetDay (d : ℤ) : ℤ := (d + 4) % 7

/-- date-fns `isWithinInterval`, inclusive on both ends. -/
def isWithinInterval (d lo hi : ℤ) : Bool := decide (lo ≤ d ∧ d ≤ hi)

/-! ## Storage accessors (`lib/storage.ts`).  `update` finds the first item
with the given id and merges the partial record into it; a missing id is a
no-op.  The `findIndex`/replace-in-place pair is embedded as replacement of
the first match. -/

def updateFirstBy {α : Type} (key : α → String) (merge : α → α) (id : String) :
    List α → List α
  | [] => []
  | c :: rest => if key c = id then merge c :: rest else c :: updateFirstBy key merge id rest

/-- The fields of `Partial<Challenge>` that `evaluateChallenges` writes. -/
structure ChallengeUpd where
  status : Option ChallengeStatus
  progress : Option ℚ
deriving Repr, DecidableEq

def applyChallengeUpd (u : ChallengeUpd) (c : Challenge) : Challenge :=
  { c with status := u.status.getD c.status, progress := u.progress.getD c.progress }

/-- `challengesStorage.update`. -/
def challengesUpdate (id : String) (u : ChallengeUpd) (store : List Challenge) :
    List Challenge :=
  updateFirstBy (fun c => c.id) (applyChallengeUpd u) id store

/-- `challengesStorage.getActive`. -/
def challengesGetActive (store : List Challenge) : List Challenge :=
  store.filter (fun c => c.status = ChallengeStatus.active)

/-! ## Challenge engine (`challengeService.ts`) -/

/-- Embedding of `calculateChallengeProgress`.  JS falsiness of the optional
numeric fields (`!challenge.targetAmount`, `!challenge.targetReduction`)
treats both `undefined` and `0` as unset, hence the explicit `= 0` guards. -/
def calculateChallengeProgress (challenge : Challenge) (expenses : List Expense)
    (savingActivities : List SavingActivity) : ℚ :=
  let challengeStart := challenge.startDate
  let challengeEnd := challenge.endDate
  match challenge.type with
  | ChallengeType.noSpendWeekend =>
      let weekendExpenses := expenses.filter (fun e =>
        (decide (jsGetDay e.date = 0 ∨ jsGetDay e.date = 6)) &&
          isWithinInterval e.date challengeStart challengeEnd)
      if weekendExpenses.length = 0 then 100 else 0
  | ChallengeType.reduceCategory =>
      match challenge.category, challenge.targetReduction with
      | some cat, some targetReduction =>
        if targetReduction = 0 then 0
        else
          let categoryExpenses := expenses.filter (fun e =>
            decide (e.category = cat) && isWithinInterval e.date challengeStart challengeEnd)
          let totalSpent := categoryExpenses.foldl (fun sum e => sum + e.amount) 0
          let historicalStart := challengeStart - 90
          let historicalExpenses := expenses.filter (fun e =>
            decide (e.category = cat) && isWithinInterval e.date historicalStart challengeStart)
          let historicalAverage : ℚ :=
            if historicalExpenses.length > 0 then
              historicalExpenses.foldl (fun sum e => sum + e.amount) 0 / 3
            else 0
          if historicalAverage = 0 then 0
          else
            let reductionAchieved := (historicalAverage - totalSpent) / historicalAverage * 100
            max 0 (min 100 (reductionAchieved / targetReduction * 100))
      | _, _ => 0
  | ChallengeType.saveAmount =>
      match challenge.targetAmount with
      | some targetAmount =>
        if targetAmount = 0 then 0
        else
          let savingsInPeriod :=
            (savingActivities.filter (fun a =>
              isWithinInterval a.date challengeStart challengeEnd)).foldl
              (fun sum a => sum + max 0 a.netSavings) 0
          min 100 (savingsInPeriod / targetAmount * 100)
      | none => 0
  | ChallengeType.expenseLimit =>
      match challenge.targetAmount with
      | some targetAmount =>
        if targetAmount = 0 then 0
        else
          let totalExpenses :=
            (expenses.filter (fun e =>
              isWithinInterval e.date challengeStart challengeEnd)).foldl
              (fun sum e => sum + e.amount) 0
          if totalExpenses ≤ targetAmount then 100
          else max 0 (100 - (totalExpenses - targetAmount) / targetAmount * 100)
      | none => 0

/-- One iteration of the `forEach` in `evaluateChallenges`, acting on the
stored collection; `challenge` is the snapshot element from `getActive`.
`isAfter(today, challengeEnd)` is the strict comparison `challengeEnd < today`. -/
def evalStep (today : ℤ) (expenses : List Expense) (savingActivities : List SavingActivity)
    (store : List Challenge) (challenge : Challenge) : List Challenge :=
  if challenge.endDate < today then
    challengesUpdate challenge.id
      ⟨some (if calculateChallengeProgress challenge expenses savingActivities ≥ 100
          then ChallengeStatus.completed else ChallengeStatus.failed),
        some (calculateChallengeProgress challenge expenses savingActivities)⟩ store
  else
    if calculateChallengeProgress challenge expenses savingActivities ≥ 100 then
      challengesUpdate challenge.id ⟨some ChallengeStatus.completed, none⟩
        (challengesUpdate challenge.id
          ⟨none, some (calculateChallengeProgress challenge expenses savingActivities)⟩ store)
    else
      challengesUpdate challenge.id
        ⟨none, some (calculateChallengeProgress challenge expenses savingActivities)⟩ store

/-- Embedding of `evaluateChallenges`: iterates over the snapshot of active
challenges, threading the stored collection, and returns the final store. -/
def evaluateChallenges (today : ℤ) (expenses : List Expense)
    (savingActivities : List SavingActivity) (store : List Challenge) : List Challenge :=
  (challengesGetActive store).foldl (evalStep today expenses savingActivities) store

/-! ### Lemmas about `updateFirstBy` and the evaluation fold -/

theorem updateFirstBy_map_key {α : Type} (key : α → String) (merge : α → α)
    (id : String) (hpres : ∀ a, key (merge a) = key a) (l : List α) :
    (updateFirstBy key merge id l).map key = l.map key := by
  induction l with
  | nil => rfl
  | cons c rest ih =>
    simp only [updateFirstBy]
    by_cases h : key c = id
    · rw [if_pos h]
      simp [hpres]
    · rw [if_neg h]
      simp [ih]

theorem updateFirstBy_getElem?_of_key_ne {α : Type} (key : α → String) (merge : α → α)
    (id : String) (l : List α) (j : ℕ) (c : α)
    (hj : l[j]? = some c) (hne : key c ≠ id) :
    (updateFirstBy key merge id l)[j]? = some c := by
  induction l generalizing j with
  | nil => simp at hj
  | cons x rest ih =>
    cases j with
    | zero =>
      simp only [List.getElem?_cons_zero, Option.some.injEq] at hj
      subst hj
      simp only [updateFirstBy]
      rw [if_neg hne]
      simp
    | succ j =>
      simp only [List.getElem?_cons_succ] at hj
      simp only [updateFirstBy]
      by_cases h : key x = id
      · rw [if_pos h]
        simpa using hj
      · rw [if_neg h]
        simpa using ih j hj

theorem updateFirstBy_getElem?_of_key_eq {α : Type} (key : α → String) (merge : α → α)
    (id : String) (l : List α) (hnd : (l.map key).Nodup) (j : ℕ) (c : α)
    (hj : l[j]? = some c) (hkey : key c = id) :
    (updateFirstBy key merge id l)[j]? = some (merge c) := by
  induction l generalizing j with
  | nil => simp at hj
  | cons x rest ih =>
    simp only [List.map_cons, List.nodup_cons] at hnd
    obtain ⟨hx, hrest⟩ := hnd
    cases j with
    | zero =>
      simp only [List.getElem?_cons_zero, Option.some.injEq] at hj
      subst hj
      simp only [updateFirstBy, if_pos hkey, List.getElem?_cons_zero]
    | succ j =>
      simp only [List.getElem?_cons_succ] at hj
      have hcmem : c ∈ rest := List.getElem?_mem hj
      have hne : key x ≠ id := by
        intro hxid
        apply hx
        have hcm : key c ∈ rest.map key := List.mem_map_of_mem key hcmem
        rw [hkey] at hcm
        rw [hxid]
        exact hcm
      simp only [updateFirstBy]
      rw [if_neg hne]
      simpa using ih hrest j hj

theorem applyChallengeUpd_id (u : ChallengeUpd) (c : Challenge) :
    (applyChallengeUpd u c).id = c.id := rfl

theorem challengesUpdate_map_id (id : String) (u : ChallengeUpd) (store : List Challenge) :
    (challengesUpdate id u store).map (fun c => c.id) = store.map (fun c => c.id) := by
  unfold challengesUpdate
  apply updateFirstBy_map_key
  intro a
  rfl

theorem evalStep_map_id (today : ℤ) (expenses : List Expense)
    (savingActivities : List SavingActivity) (store : List Challenge) (ch : Challenge) :
    (evalStep today expenses savingActivities store ch).map (fun c => c.id) =
      store.map (fun c => c.id) := by
  unfold evalStep
  split
  · exact challengesUpdate_map_id _ _ _
  · split
    · rw [challengesUpdate_map_id, challengesUpdate_map_id]
    · exact challengesUpdate_map_id _ _ _

theorem evalStep_getElem?_of_id_ne (today : ℤ) (expenses : List Expense)
    (savingActivities : List SavingActivity) (store : List Challenge) (ch : Challenge)
    (j : ℕ) (c : Challenge) (hj : store[j]? = some c) (hne : ch.id ≠ c.id) :
    (evalStep today expenses savingActivities store ch)[j]? = some c := by
  have hne' : c.id ≠ ch.id := fun h => hne h.symm
  unfold evalStep
  split
  · exact updateFirstBy_getElem?_of_key_ne _ _ _ _ _ _ hj hne'
  · split
    · exact updateFirstBy_getElem?_of_key_ne _ _ _ _ _ _
        (updateFirstBy_getElem?_of_key_ne _ _ _ _ _ _ hj hne') hne'
    · exact updateFirstBy_getElem?_of_key_ne _ _ _ _ _ _ hj hne'

theorem foldEval_getElem?_untouched (today : ℤ) (expenses : List Expense)
    (savingActivities : List SavingActivity) (l : List Challenge) (store : List Challenge)
    (j : ℕ) (c : Challenge) (hj : store[j]? = some c) (h : ∀ ch ∈ l, ch.id ≠ c.id) :
    (l.foldl (evalStep today expenses savingActivities) store)[j]? = some c := by
  induction l generalizing store with
  | nil => simpa using hj
  | cons ch rest ih =>
    simp only [List.foldl_cons]
    exact ih _
      (evalStep_getElem?_of_id_ne _ _ _ _ _ _ _ hj (h ch (List.mem_cons_self ch rest)))
      (fun a ha => h a (List.mem_cons_of_mem ch ha))

theorem foldEval_map_id (today : ℤ) (expenses : List Expense)
    (savingActivities : List SavingActivity) (l : List Challenge) (store : List Challenge) :
    ((l.foldl (evalStep today expenses savingActivities) store).map (fun c => c.id)) =
      store.map (fun c => c.id) := by
  induction l generalizing store with
  | nil => rfl
  | cons ch rest ih =>
    simp only [List.foldl_cons]
    rw [ih, evalStep_map_id]

theorem nodup_split_ne {β : Type} {xs ys : List β} {b : β}
    (h : (xs ++ b :: ys).Nodup) : (∀ a ∈ xs, a ≠ b) ∧ (∀ a ∈ ys, a ≠ b) := by
  rw [List.nodup_append] at h
  obtain ⟨h1, h2, hdisj⟩ := h
  rw [List.nodup_cons] at h2
  constructor
  · intro a ha hab
    exact hdisj ha (by rw [hab]; exact List.mem_cons_self b ys)
  · intro a ha hab
    exact h2.1 (by rw [← hab]; exact ha)

/-- C1: `evaluateChallenges` leaves every challenge in a terminal status
(completed, failed, or expired) entirely unchanged — only active challenges
are updated — and an active challenge whose `endDate` is strictly before
`today` is transitioned in one evaluation to `completed` when its computed
progress is ≥ 100 and to `failed` otherwise, with the computed progress
persisted.  Stored ids are assumed pairwise distinct. -/
theorem C1_terminal_state_invariant (today : ℤ) (expenses : List Expense)
    (savingActivities : List SavingActivity) (store : List Challenge)
    (hnd : (store.map (fun c => c.id)).Nodup) :
    (∀ (j : ℕ) (c : Challenge), store[j]? = some c → c.status ≠ ChallengeStatus.active →
      (evaluateChallenges today expenses savingActivities store)[j]? = some c) ∧
    (∀ (j : ℕ) (c : Challenge), store[j]? = some c → c.status = ChallengeStatus.active →
      c.endDate < today →
      (evaluateChallenges today expenses savingActivities store)[j]? =
        some { c with
          status := if calculateChallengeProgress c expenses savingActivities ≥ 100
            then ChallengeStatus.completed else ChallengeStatus.failed
          progress := calculateChallengeProgress c expenses savingActivities }) := by
  constructor
  · intro j c hj hstat
    unfold evaluateChallenges
    apply foldEval_getElem?_untouched _ _ _ _ _ _ _ hj
    intro ch hch hid
    have hchstore : ch ∈ store := (List.mem_filter.mp hch).1
    have hchact : ch.status = ChallengeStatus.active := by
      have h2 := (List.mem_filter.mp hch).2
      simpa using h2
    have hcstore : c ∈ store := List.getElem?_mem hj
    have hceq : ch = c := List.inj_on_of_nodup_map hnd hchstore hcstore hid
    rw [hceq] at hchact
    exact hstat hchact
  · intro j c hj hstat hend
    have hcstore : c ∈ store := List.getElem?_mem hj
    have hcact : c ∈ challengesGetActive store := by
      unfold challengesGetActive
      rw [List.mem_filter]
      exact ⟨hcstore, by simp [hstat]⟩
    obtain ⟨l₁, l₂, hsplit⟩ := List.append_of_mem hcact
    have hasub : (challengesGetActive store).Sublist store := List.filter_sublist _
    have handup : ((challengesGetActive store).map (fun c => c.id)).Nodup :=
      List.Nodup.sublist (hasub.map _) hnd
    have handup2 : ((l₁.map fun c => c.id) ++ (c.id :: l₂.map fun c => c.id)).Nodup := by
      rw [hsplit] at handup
      simpa using handup
    obtain ⟨hl₁, hl₂⟩ := nodup_split_ne handup2
    have h₁ : ∀ ch ∈ l₁, ch.id ≠ c.id := fun ch hch => hl₁ _ (List.mem_map_of_mem _ hch)
    have h₂ : ∀ ch ∈ l₂, ch.id ≠ c.id := fun ch hch => hl₂ _ (List.mem_map_of_mem _ hch)
    unfold evaluateChallenges
    rw [hsplit, List.foldl_append, List.foldl_cons]
    have hst₁ : (l₁.foldl (evalStep today expenses savingActivities) store)[j]? = some c :=
      foldEval_getElem?_untouched _ _ _ _ _ _ _ hj h₁
    have hmap₁ : (((l₁.foldl (evalStep today expenses savingActivities) store).map
        (fun c => c.id))).Nodup := by
      rw [foldEval_map_id]
      exact hnd
    have hstep : (evalStep today expenses savingActivities
        (l₁.foldl (evalStep today expenses savingActivities) store) c)[j]? =
        some (applyChallengeUpd
          ⟨some (if calculateChallengeProgress c expenses savingActivities ≥ 100
              then ChallengeStatus.completed else ChallengeStatus.failed),
            some (calculateChallengeProgress c expenses savingActivities)⟩ c) := by
      unfold evalStep
      rw [if_pos hend]
      exact updateFirstBy_getElem?_of_key_eq _ _ _ _ hmap₁ _ _ hst₁ rfl
    exact foldEval_getElem?_untouched today expenses savingActivities l₂ _ j _ hstep
      (fun ch hch => h₂ ch hch)

/-- A terminal (completed) challenge used in the C1 witness. -/
def terminalSample : Challenge :=
  ⟨"t1", ChallengeType.saveAmount, none, some 10, none, 0, 5, ChallengeStatus.completed, 100⟩

/-- An active challenge past its end date used in the C1 witness. -/
def activeExpiredSample : Challenge :=
  ⟨"a1", ChallengeType.expenseLimit, none, some 10, none, 0, 5, ChallengeStatus.active, 0⟩

/-- Witness for C1 on a concrete two-challenge store evaluated past the window:
the terminal challenge is untouched and the active one completes with progress 100. -/
theorem C1_terminal_state_invariant_witness :
    (evaluateChallenges 10 [] [] [terminalSample, activeExpiredSample])[0]? =
      some terminalSample ∧
    (evaluateChallenges 10 [] [] [terminalSample, activeExpiredSample])[1]? =
      some { activeExpiredSample with
        status := ChallengeStatus.completed, progress := 100 } := by
  have h := C1_terminal_state_invariant 10 [] [] [terminalSample, activeExpiredSample]
    (by simp [terminalSample, activeExpiredSample])
  constructor
  · exact h.1 0 terminalSample rfl (by simp [terminalSample])
  · have hp : calculateChallengeProgress activeExpiredSample [] [] = 100 := by
      norm_num [calculateChallengeProgress, activeExpiredSample]
    have h2 := h.2 1 activeExpiredSample rfl rfl (by norm_num [activeExpiredSample])
    rw [hp] at h2
    rw [if_pos (by norm_num)] at h2
    exact h2

inductive GoalCategory
  | vacation | emergency | home | car | education | other
deriving Repr, DecidableEq

structure SavingsGoal where
  id : String
  name : String
  targetAmount : ℚ
  currentAmount : ℚ
  deadline : ℚ
  category : GoalCategory
deriving Repr, DecidableEq

/-- `Partial<SavingsGoal>` over the modeled fields. -/
structure SavingsGoalUpd where
  name : Option String
  targetAmount : Option ℚ
  currentAmount : Option ℚ
  deadline : Option ℚ
  category : Option GoalCategory
deriving Repr, DecidableEq

def applySavingsGoalUpd (u : SavingsGoalUpd) (g : SavingsGoal) : SavingsGoal :=
  { g with
    name := u.name.getD g.name
    targetAmount := u.targetAmount.getD g.targetAmount
    currentAmount := u.currentAmount.getD g.currentAmount
    deadline := u.deadline.getD g.deadline
    category := u.category.getD g.category }

/-- `savingsGoalsStorage.update`. -/
def savingsGoalsUpdate (id : String) (u : SavingsGoalUpd) (store : List SavingsGoal) :
    List SavingsGoal :=
  updateFirstBy (fun g => g.id) (applySavingsGoalUpd u) id store

theorem updateFirstBy_of_not_mem {α : Type} (key : α → String) (merge : α → α)
    (id : String) (l : List α) (h : ∀ a ∈ l, key a ≠ id) :
    updateFirstBy key merge id l = l := by
  induction l with
  | nil => rfl
  | cons c rest ih =>
    simp only [updateFirstBy]
    rw [if_neg (h c (List.mem_cons_self c rest))]
    rw [ih (fun a ha => h a (List.mem_cons_of_mem c ha))]

/-- C10: a storage `update` with an id matching no stored item leaves the
stored collection entirely unchanged, both for challenges and savings goals. -/
theorem C10_update_missing_id_noop (id : String) (u : ChallengeUpd) (v : SavingsGoalUpd)
    (cs : List Challenge) (gs : List SavingsGoal)
    (hc : ∀ c ∈ cs, c.id ≠ id) (hg : ∀ g ∈ gs, g.id ≠ id) :
    challengesUpdate id u cs = cs ∧ savingsGoalsUpdate id v gs = gs :=
  ⟨updateFirstBy_of_not_mem _ _ _ cs hc, updateFirstBy_of_not_mem _ _ _ gs hg⟩

/-- Witness for C10 at a concrete store and missing id. -/
theorem C10_update_missing_id_noop_witness :
    challengesUpdate "zzz" ⟨some ChallengeStatus.completed, some 100⟩
        [⟨"a", ChallengeType.saveAmount, none, some 50, none, 0, 7, ChallengeStatus.active, 0⟩] =
      [⟨"a", ChallengeType.saveAmount, none, some 50, none, 0, 7, ChallengeStatus.active, 0⟩] ∧
    savingsGoalsUpdate "zzz" ⟨none, none, some 5, none, none⟩
        [⟨"g1", "trip", 100, 10, 0, GoalCategory.vacation⟩] =
      [⟨"g1", "trip", 100, 10, 0, GoalCategory.vacation⟩] :=
  C10_update_missing_id_noop "zzz" _ _ _ _
    (by intro c hc; simp at hc; subst hc; decide)
    (by intro g hg; simp at hg; subst hg; decide)

/-- C5 (counterexample): the claim covers every expense-limit challenge with
`targetAmount` set, but the code treats a set-but-zero `targetAmount` as unset
(JS falsiness) and returns progress 0 even though total spend `0 ≤ 0 = target`
would demand progress 100. -/
theorem C5_expense_limit_zero_target_counterexample :
    calculateChallengeProgress
        ⟨"c", ChallengeType.expenseLimit, none, some 0, none, 0, 30, ChallengeStatus.active, 0⟩
        [] [] = 0 ∧ (0 : ℚ) ≠ 100 := by
  constructor
  · norm_num [calculateChallengeProgress]
  · norm_num

/-- C5 (amended): for every active expense-limit challenge with positive
`targetAmount`, in-window spend `≤ target` gives progress 100; past the limit
progress is `100 − ((spend − target)/target · 100)` clamped below at 0, so it
is exactly the linear formula strictly between `target` and `2·target`, and 0
at spend `= 2·target` (and beyond). -/
theorem C5_expense_limit_progress (challenge : Challenge) (expenses : List Expense)
    (savingActivities : List SavingActivity) (t : ℚ)
    (hstatus : challenge.status = ChallengeStatus.active)
    (htype : challenge.type = ChallengeType.expenseLimit)
    (hT : challenge.targetAmount = some t) (ht : 0 < t) :
    let spend := (expenses.filter (fun e =>
      isWithinInterval e.date challenge.startDate challenge.endDate)).foldl
        (fun sum e => sum + e.amount) 0
    (spend ≤ t → calculateChallengeProgress challenge expenses savingActivities = 100) ∧
    (t < spend →
      calculateChallengeProgress challenge expenses savingActivities =
        max 0 (100 - (spend - t) / t * 100)) ∧
    (t < spend → spend < 2 * t →
      calculateChallengeProgress challenge expenses savingActivities =
        100 - (spend - t) / t * 100) ∧
    (2 * t ≤ spend → calculateChallengeProgress challenge expenses savingActivities = 0) := by
  intro spend
  have hunfold : calculateChallengeProgress challenge expenses savingActivities =
      if spend ≤ t then 100 else max 0 (100 - (spend - t) / t * 100) := by
    unfold calculateChallengeProgress
    rw [htype, hT]
    simp only [if_neg ht.ne']
  refine ⟨?_, ?_, ?_, ?_⟩
  · intro h
    rw [hunfold, if_pos h]
  · intro h
    rw [hunfold, if_neg (not_le.mpr h)]
  · intro h h2
    rw [hunfold, if_neg (not_le.mpr h)]
    have hd : (spend - t) / t < 1 := (div_lt_one ht).mpr (by linarith)
    rw [max_eq_right (by nlinarith)]
  · intro h
    rw [hunfold, if_neg (not_le.mpr (by linarith))]
    have hd : 1 ≤ (spend - t) / t := (one_le_div ht).mpr (by linarith)
    rw [max_eq_left (by nlinarith)]

/-- Witness for C5 at a concrete mid-range overspend: target 10, spend 15,
progress 50. -/
theorem C5_expense_limit_progress_witness :
    calculateChallengeProgress
        ⟨"c", ChallengeType.expenseLimit, none, some 10, none, 0, 30, ChallengeStatus.active, 0⟩
        [⟨"e1", 15, ExpenseCategory.food, 5, "1970-01"⟩] [] = 50 := by
  have h := (C5_expense_limit_progress
      ⟨"c", ChallengeType.expenseLimit, none, some 10, none, 0, 30, ChallengeStatus.active, 0⟩
      [⟨"e1", 15, ExpenseCategory.food, 5, "1970-01"⟩] [] 10 rfl rfl rfl (by norm_num)).2.2.1
  simp only [List.filter, isWithinInterval, List.foldl] at h
  norm_num at h
  convert h using 2

/-! ## Badges (`badgesStorage` in `lib/storage.ts`, `awardBadgeIfEligible` in the
streak service).  `earnedAt` timestamps are day numbers. -/

inductive BadgeCategory
  | streak | savings | budget | achievement
deriving Repr, DecidableEq

structure Badge where
  id : String
  name : String
  description : String
  icon : String
  category : BadgeCategory
  earnedAt : ℤ
  requirement : ℕ
deriving Repr, DecidableEq

/-- `badgesStorage.add`: appends only when no stored badge has the same id. -/
def badgesAdd (badges : List Badge) (badge : Badge) : List Badge :=
  if badges.any (fun b => b.id = badge.id) then badges else badges ++ [badge]

structure StreakBadgeSpec where
  days : ℕ
  name : String
  description : String
deriving Repr, DecidableEq

/-- The fixed threshold table in `awardBadgeIfEligible`. -/
def streakBadges : List StreakBadgeSpec :=
  [⟨7, "7-Day Saver", "Saved money for 7 consecutive days"⟩,
   ⟨14, "2-Week Champion", "Saved money for 14 consecutive days"⟩,
   ⟨30, "Monthly Master", "Saved money for 30 consecutive days"⟩,
   ⟨60, "2-Month Mogul", "Saved money for 60 consecutive days"⟩,
   ⟨100, "100-Day Legend", "Saved money for 100 consecutive days"⟩]

def streakBadgeId (days : ℕ) : String := "streak_" ++ toString days

/-- One iteration of the `forEach` in `awardBadgeIfEligible`: `existingBadges`
is the snapshot read before the loop, `acc` the live store that
`badgesStorage.add` re-reads. -/
def awardStep (currentStreak : ℕ) (now : ℤ) (existingBadges : List Badge)
    (acc : List Badge) (sb : StreakBadgeSpec) : List Badge :=
  if sb.days ≤ currentStreak ∧ existingBadges.any (fun b => b.id = streakBadgeId sb.days) = false
  then
    badgesAdd acc
      ⟨streakBadgeId sb.days, sb.name, sb.description, "🔥", BadgeCategory.streak, now, sb.days⟩
  else acc

/-- Embedding of `awardBadgeIfEligible`. -/
def awardBadgeIfEligible (currentStreak : ℕ) (now : ℤ) (badges : List Badge) : List Badge :=
  streakBadges.foldl (awardStep currentStreak now badges) badges

/-- Number of stored badges carrying a given id. -/
def countId (id : String) (badges : List Badge) : ℕ :=
  badges.countP (fun b => b.id = id)

theorem countId_eq_zero_iff_any_false (id : String) (badges : List Badge) :
    countId id badges = 0 ↔ badges.any (fun b => b.id = id) = false := by
  rw [countId, ← not_iff_not]
  rw [← ne_eq, ← Nat.pos_iff_ne_zero, List.countP_pos]
  simp [List.any_eq_true]

theorem countId_badgesAdd (bs : List Badge) (b : Badge) (id : String) :
    countId id (badgesAdd bs b) =
      if b.id = id ∧ countId b.id bs = 0 then countId id bs + 1 else countId id bs := by
  unfold badgesAdd
  by_cases h : bs.any (fun x => x.id = b.id) = true
  · rw [if_pos h]
    rw [if_neg]
    rintro ⟨-, hzero⟩
    rw [countId_eq_zero_iff_any_false] at hzero
    rw [h] at hzero
    cases hzero
  · rw [if_neg h]
    have hz : countId b.id bs = 0 := by
      rw [countId_eq_zero_iff_any_false]
      exact Bool.eq_false_iff.mpr h
    rw [countId, List.countP_append]
    by_cases hb : b.id = id
    · rw [if_pos ⟨hb, hz⟩]
      simp [countId, hb]
    · rw [if_neg (fun hc => hb hc.1)]
      simp [countId, hb]

/-- Whether some spec in `l` would fire for the badge id `id` at streak `cs`. -/
def triggers (cs : ℕ) (l : List StreakBadgeSpec) (id : String) : Prop :=
  ∃ sb ∈ l, streakBadgeId sb.days = id ∧ sb.days ≤ cs

instance (cs : ℕ) (l : List StreakBadgeSpec) (id : String) : Decidable (triggers cs l id) := by
  unfold triggers
  infer_instance

theorem countId_awardFold (cs : ℕ) (now : ℤ) (existing : List Badge) (id : String)
    (l : List StreakBadgeSpec) :
    ∀ acc : List Badge,
      countId id (l.foldl (awardStep cs now existing) acc) =
        if triggers cs l id ∧ existing.any (fun b => b.id = id) = false ∧ countId id acc = 0
        then 1 else countId id acc := by
  induction l with
  | nil =>
    intro acc
    rw [if_neg]
    · rfl
    · rintro ⟨⟨sb, hsb, -⟩, -⟩
      simp at hsb
  | cons sb rest ih =>
    intro acc
    simp only [List.foldl_cons]
    rw [ih]
    by_cases hd : streakBadgeId sb.days = id
    · by_cases hcs : sb.days ≤ cs
      · by_cases hex : existing.any (fun b => b.id = streakBadgeId sb.days) = false
        · have hstep : awardStep cs now existing acc sb =
              badgesAdd acc ⟨streakBadgeId sb.days, sb.name, sb.description, "🔥",
                BadgeCategory.streak, now, sb.days⟩ := by
            unfold awardStep
            rw [if_pos ⟨hcs, hex⟩]
          have hexid : existing.any (fun b => b.id = id) = false := by rw [← hd]; exact hex
          have htrig : triggers cs (sb :: rest) id :=
            ⟨sb, List.mem_cons_self sb rest, hd, hcs⟩
          by_cases hz : countId id acc = 0
          · have hcount : countId id (awardStep cs now existing acc sb) = countId id acc + 1 := by
              rw [hstep, countId_badgesAdd]
              rw [if_pos ⟨hd, by rw [hd]; exact hz⟩]
            rw [hcount]
            rw [if_neg (fun hc => Nat.succ_ne_zero _ hc.2.2)]
            rw [hz, if_pos ⟨htrig, hexid, rfl⟩]
          · have hcount : countId id (awardStep cs now existing acc sb) = countId id acc := by
              rw [hstep, countId_badgesAdd]
              rw [if_neg (fun hc => hz (by rw [← hd]; exact hc.2))]
            rw [hcount]
            rw [if_neg (fun hc => hz hc.2.2), if_neg (fun hc => hz hc.2.2)]
        · have hstep : awardStep cs now existing acc sb = acc := by
            unfold awardStep
            rw [if_neg (fun hc => hex hc.2)]
          rw [hstep]
          have hexid : existing.any (fun b => b.id = id) ≠ false := by rw [← hd]; exact hex
          rw [if_neg (fun hc => hexid hc.2.1), if_neg (fun hc => hexid hc.2.1)]
      · have hstep : awardStep cs now existing acc sb = acc := by
          unfold awardStep
          rw [if_neg (fun hc => hcs hc.1)]
        rw [hstep]
        have htr : triggers cs (sb :: rest) id ↔ triggers cs rest id := by
          constructor
          · rintro ⟨x, hx, hxid, hxcs⟩
            rcases List.mem_cons.mp hx with hx1 | hx2
            · exact absurd (hx1 ▸ hxcs) hcs
            · exact ⟨x, hx2, hxid, hxcs⟩
          · rintro ⟨x, hx, hxid, hxcs⟩
            exact ⟨x, List.mem_cons_of_mem sb hx, hxid, hxcs⟩
        by_cases hc : triggers cs rest id ∧ existing.any (fun b => b.id = id) = false ∧
            countId id acc = 0
        · rw [if_pos hc, if_pos ⟨htr.mpr hc.1, hc.2⟩]
        · rw [if_neg hc, if_neg (fun hx => hc ⟨htr.mp hx.1, hx.2⟩)]
    · have hnc : countId id (awardStep cs now existing acc sb) = countId id acc := by
        unfold awardStep
        split
        · rw [countId_badgesAdd]
          rw [if_neg]
          rintro ⟨hbid, -⟩
          exact hd hbid
        · rfl
      rw [hnc]
      have htr : triggers cs (sb :: rest) id ↔ triggers cs rest id := by
        constructor
        · rintro ⟨x, hx, hxid, hxcs⟩
          rcases List.mem_cons.mp hx with hx1 | hx2
          · exact absurd (hx1 ▸ hxid) hd
          · exact ⟨x, hx2, hxid, hxcs⟩
        · rintro ⟨x, hx, hxid, hxcs⟩
          exact ⟨x, List.mem_cons_of_mem sb hx, hxid, hxcs⟩
      by_cases hc : triggers cs rest id ∧ existing.any (fun b => b.id = id) = false ∧
          countId id acc = 0
      · rw [if_pos hc, if_pos ⟨htr.mpr hc.1, hc.2⟩]
      · rw [if_neg hc, if_neg (fun hx => hc ⟨htr.mp hx.1, hx.2⟩)]

theorem award_has_eligible_id (cs : ℕ) (now : ℤ) (badges : List Badge)
    (sb : StreakBadgeSpec) (hsb : sb ∈ streakBadges) (hcs : sb.days ≤ cs) :
    (awardBadgeIfEligible cs now badges).any
      (fun b => b.id = streakBadgeId sb.days) = true := by
  have h := countId_awardFold cs now badges (streakBadgeId sb.days) streakBadges badges
  have hpos : 0 < countId (streakBadgeId sb.days) (awardBadgeIfEligible cs now badges) := by
    unfold awardBadgeIfEligible
    rw [h]
    by_cases hz : countId (streakBadgeId sb.days) badges = 0
    · rw [if_pos ⟨⟨sb, hsb, rfl, hcs⟩, (countId_eq_zero_iff_any_false _ _).mp hz, hz⟩]
      norm_num
    · rw [if_neg (fun hc => hz hc.2.2)]
      omega
  rw [countId, List.countP_pos] at hpos
  rw [List.any_eq_true]
  simpa using hpos

theorem foldl_awardStep_fixed (cs : ℕ) (now : ℤ) (existing : List Badge)
    (l : List StreakBadgeSpec)
    (h : ∀ sb ∈ l, sb.days ≤ cs →
      existing.any (fun b => b.id = streakBadgeId sb.days) = true) :
    ∀ acc : List Badge, l.foldl (awardStep cs now existing) acc = acc := by
  induction l with
  | nil => intro acc; rfl
  | cons sb rest ih =>
    intro acc
    simp only [List.foldl_cons]
    have hstep : awardStep cs now existing acc sb = acc := by
      unfold awardStep
      rw [if_neg]
      rintro ⟨hcs, hfalse⟩
      rw [h sb (List.mem_cons_self sb rest) hcs] at hfalse
      cases hfalse
    rw [hstep]
    exact ih (fun x hx => h x (List.mem_cons_of_mem sb hx)) acc

/-- C7: running the badge-eligibility check twice with an unchanged
`currentStreak` yields the same badge list as running it once, and for each
threshold `d ∈ {7,14,30,60,100}` the badge with fixed id `streak_<d>` is
appended exactly once when `currentStreak ≥ d` and it is not already earned,
and never otherwise. -/
theorem C7_badge_award_idempotent (cs : ℕ) (n1 n2 : ℤ) (badges : List Badge) :
    awardBadgeIfEligible cs n2 (awardBadgeIfEligible cs n1 badges) =
      awardBadgeIfEligible cs n1 badges ∧
    (∀ d ∈ [7, 14, 30, 60, 100],
      countId (streakBadgeId d) (awardBadgeIfEligible cs n1 badges) =
        if d ≤ cs ∧ countId (streakBadgeId d) badges = 0 then 1
        else countId (streakBadgeId d) badges) := by
  constructor
  · unfold awardBadgeIfEligible
    apply foldl_awardStep_fixed
    intro sb hsb hcs
    exact award_has_eligible_id cs n1 badges sb hsb hcs
  · intro d hd
    have h := countId_awardFold cs n1 badges (streakBadgeId d) streakBadges badges
    unfold awardBadgeIfEligible
    rw [h]
    have htr : triggers cs streakBadges (streakBadgeId d) ↔ d ≤ cs := by
      constructor
      · rintro ⟨sb, hsb, hid, hcs⟩
        fin_cases hsb <;> fin_cases hd <;>
          first
            | exact hcs
            | (exfalso; revert hid; decide)
      · intro hcs
        fin_cases hd <;>
          first
            | exact ⟨⟨7, "7-Day Saver", "Saved money for 7 consecutive days"⟩,
                by decide, rfl, hcs⟩
            | exact ⟨⟨14, "2-Week Champion", "Saved money for 14 consecutive days"⟩,
                by decide, rfl, hcs⟩
            | exact ⟨⟨30, "Monthly Master", "Saved money for 30 consecutive days"⟩,
                by decide, rfl, hcs⟩
            | exact ⟨⟨60, "2-Month Mogul", "Saved money for 60 consecutive days"⟩,
                by decide, rfl, hcs⟩
            | exact ⟨⟨100, "100-Day Legend", "Saved money for 100 consecutive days"⟩,
                by decide, rfl, hcs⟩
    by_cases hc : d ≤ cs ∧ countId (streakBadgeId d) badges = 0
    · rw [if_pos ⟨htr.mpr hc.1, (countId_eq_zero_iff_any_false _ _).mp hc.2, hc.2⟩,
        if_pos hc]
    · rw [if_neg, if_neg hc]
      rintro ⟨h1, -, h3⟩
      exact hc ⟨htr.mp h1, h3⟩

/-- Witness for C7: from an empty badge store with a 10-day streak, the run is
idempotent and `streak_7` is awarded exactly once. -/
theorem C7_badge_award_idempotent_witness :
    awardBadgeIfEligible 10 1 (awardBadgeIfEligible 10 0 []) =
      awardBadgeIfEligible 10 0 [] ∧
    countId (streakBadgeId 7) (awardBadgeIfEligible 10 0 []) = 1 := by
  have h := C7_badge_award_idempotent 10 0 1 []
  constructor
  · exact h.1
  · have h7 := h.2 7 (by decide)
    rw [h7, if_pos (by constructor <;> decide)]

/-! ## Streak engine (`recordSavingActivity` / `updateStreak` in the streak
service).  Saving days are day numbers; `differenceInDays(today, d) = today − d`
at day granularity.  The `'yyyy-MM-dd'` strings sort like their day numbers, so
`history.sort()` is embedded as an ascending sort of the day list. -/

structure UserStreak where
  userId : String
  currentStreak : ℕ
  longestStreak : ℕ
  lastSavingDay : Option ℤ
  streakHistory : List ℤ
deriving Repr, DecidableEq

/-- The streak-service state: the singleton `UserStreak` record plus the
activity log and badge list it writes. -/
structure StreakState where
  streak : UserStreak
  activities : List SavingActivity
  badges : List Badge
deriving Repr, DecidableEq

/-- Continuation of the streak walk in `updateStreak` (loop body for `i > 0`):
counts while each entry is exactly one day earlier than the previous. -/
def streakRun (today : ℤ) : ℤ → List ℤ → ℕ
  | _, [] => 0
  | prevDiff, d :: rest =>
      if today - d = prevDiff + 1 then 1 + streakRun today (today - d) rest else 0

/-- The streak walk of `updateStreak` over the most-recent-first history: a run
starts only if the most recent entry is within 1 day of today. -/
def computeCurrentStreak (today : ℤ) : List ℤ → ℕ
  | [] => 0
  | d :: rest => if today - d ≤ 1 then 1 + streakRun today (today - d) rest else 0

/-- `push` + in-place `sort` when the date is not yet in the history. -/
def nextHistory (savingDate : ℤ) (history : List ℤ) : List ℤ :=
  if savingDate ∈ history then history
  else List.insertionSort (· ≤ ·) (history ++ [savingDate])

/-- Embedding of `updateStreak`: deduplicates the day into the history,
recomputes the current streak over the descending sorted history, keeps the
running maximum, stamps `lastSavingDay`, then checks badge eligibility. -/
def updateStreak (now : ℤ) (savingDate : ℤ) (s : StreakState) : StreakState :=
  { s with
    streak := { s.streak with
      currentStreak := computeCurrentStreak now
        ((List.insertionSort (· ≤ ·) (nextHistory savingDate s.streak.streakHistory)).reverse)
      longestStreak := max s.streak.longestStreak
        (computeCurrentStreak now
          ((List.insertionSort (· ≤ ·) (nextHistory savingDate s.streak.streakHistory)).reverse))
      lastSavingDay := some savingDate
      streakHistory := nextHistory savingDate s.streak.streakHistory }
    badges := awardBadgeIfEligible
      (computeCurrentStreak now
        ((List.insertionSort (· ≤ ·) (nextHistory savingDate s.streak.streakHistory)).reverse))
      now s.badges }

/-- Embedding of `recordSavingActivity`: prepends the activity row for today
and, when the day qualifies (`netSavings > 0` or the manual override),
recomputes the streak via `updateStreak`. -/
def recordSavingActivity (now : ℤ) (netSavings : ℚ) (isManualSavingDay : Bool)
    (goalContributions : List (String × ℚ)) (s : StreakState) : StreakState :=
  let s1 : StreakState :=
    { s with activities :=
        ⟨"saving_" ++ toString now, now, netSavings, isManualSavingDay, goalContributions⟩ ::
          s.activities }
  if netSavings > 0 ∨ isManualSavingDay = true then updateStreak now now s1 else s1

theorem mem_nextHistory (savingDate : ℤ) (history : List ℤ) :
    savingDate ∈ nextHistory savingDate history := by
  unfold nextHistory
  split
  · assumption
  · rw [List.mem_insertionSort]
    exact List.mem_append_right history (List.mem_singleton.mpr rfl)

theorem nextHistory_of_mem (savingDate : ℤ) (history : List ℤ)
    (h : savingDate ∈ history) : nextHistory savingDate history = history := by
  unfold nextHistory
  rw [if_pos h]

/-- C4: recording two qualifying saving activities on the same calendar day
yields the same `currentStreak` as a single qualifying recording on that day:
the second call finds the day already deduplicated in `streakHistory` and
recomputes the identical streak. -/
theorem C4_streak_same_day_idempotent (s : StreakState) (now : ℤ)
    (n1 n2 : ℚ) (b1 b2 : Bool) (g1 g2 : List (String × ℚ))
    (h1 : n1 > 0 ∨ b1 = true) (h2 : n2 > 0 ∨ b2 = true) :
    (recordSavingActivity now n2 b2 g2
        (recordSavingActivity now n1 b1 g1 s)).streak.currentStreak =
      (recordSavingActivity now n1 b1 g1 s).streak.currentStreak := by
  unfold recordSavingActivity
  rw [if_pos h1, if_pos h2]
  unfold updateStreak
  simp only
  rw [nextHistory_of_mem now _ (mem_nextHistory now s.streak.streakHistory)]

/-- Witness for C4: two same-day recordings from the empty state leave
`currentStreak` at 1, the value of a single recording. -/
theorem C4_streak_same_day_idempotent_witness :
    (recordSavingActivity 3 5 false []
        (recordSavingActivity 3 2 false []
          ⟨⟨"default", 0, 0, none, []⟩, [], []⟩)).streak.currentStreak =
      (recordSavingActivity 3 2 false []
        ⟨⟨"default", 0, 0, none, []⟩, [], []⟩).streak.currentStreak ∧
    (recordSavingActivity 3 2 false []
        ⟨⟨"default", 0, 0, none, []⟩, [], []⟩).streak.currentStreak = 1 := by
  constructor
  · exact C4_streak_same_day_idempotent ⟨⟨"default", 0, 0, none, []⟩, [], []⟩ 3 2 5
      false false [] [] (Or.inl (by norm_num)) (Or.inl (by norm_num))
  · norm_num [recordSavingActivity, updateStreak, nextHistory, computeCurrentStreak,
      streakRun, List.insertionSort, List.orderedInsert]

/-! ## Tips engine (`tipsService.ts`).  The JS `Record` accumulators keep
string keys in first-insertion order, embedded as association lists built in
encounter order.  The presentation-only `id`/`text` fields of `Tip` are
omitted.  `Array.prototype.sort` with a numeric comparator is embedded as a
sort by the comparator's induced relation. -/

structure Budget where
  id : String
  category : ExpenseCategory
  monthlyLimit : ℚ
  currentSpent : ℚ
  month : String
deriving Repr, DecidableEq

inductive TipAction
  | reduceSpending | increaseSavings | budgetOptimization
deriving Repr, DecidableEq

structure Tip where
  impactYearly : ℚ
  confidenceScore : ℚ
  relatedCategory : ExpenseCategory
  actionType : TipAction
  suggestedReduction : ℚ
deriving Repr, DecidableEq

/-- `acc[k] = (acc[k] || 0) + v`, preserving JS object key insertion order. -/
def addToAssoc {κ : Type} [DecidableEq κ] : List (κ × ℚ) → κ → ℚ → List (κ × ℚ)
  | [], k, v => [(k, v)]
  | (k', v') :: rest, k, v =>
      if k' = k then (k', v' + v) :: rest else (k', v') :: addToAssoc rest k v

/-- `assoc[k] || 0`. -/
def assocGetD {κ : Type} [DecidableEq κ] (acc : List (κ × ℚ)) (k : κ) : ℚ :=
  match acc.find? (fun p => p.1 = k) with
  | some p => p.2
  | none => 0

/-- `Rat.floor` written through num/den so it kernel-reduces. -/
def ratFloor (x : ℚ) : ℤ := x.num / (x.den : ℤ)

/-- JS `Math.ceil` on a rational, via `⌈x⌉ = −⌊−x⌋`. -/
def jsCeil (x : ℚ) : ℤ := -(ratFloor (-x))

theorem jsCeil_eq_ceil (x : ℚ) : jsCeil x = ⌈x⌉ := by
  unfold jsCeil ratFloor
  rw [← Rat.floor_def, Int.floor_neg, neg_neg]

/-- `Math.max(1, Math.ceil(expenses.length / 30))`, the rough month estimate of
the tips service. -/
def tipsMonthsCount (expenses : List Expense) : ℚ :=
  max 1 ((jsCeil ((expenses.length : ℚ) / 30) : ℤ) : ℚ)

/-- `getCategorySpending` of the tips service: monthly averages per category. -/
def tipsCategorySpending (expenses : List Expense) : List (ExpenseCategory × ℚ) :=
  (expenses.foldl (fun acc e => addToAssoc acc e.category e.amount) []).map
    (fun p => (p.1, p.2 / tipsMonthsCount expenses))

def getTotalMonthlySpending (expenses : List Expense) : ℚ :=
  (expenses.foldl (fun sum e => sum + e.amount) 0) / tipsMonthsCount expenses

def generateCategoryTips (expenses : List Expense) : List Tip :=
  (tipsCategorySpending expenses).flatMap (fun p =>
    if p.2 > 200 then
      [{ impactYearly := min (p.2 * 0.2) 50 * 12
         confidenceScore := if p.2 > 300 then 0.8 else 0.6
         relatedCategory := p.1
         actionType := TipAction.reduceSpending
         suggestedReduction := min (p.2 * 0.2) 50 }]
    else [])

def generateBudgetTips (expenses : List Expense) (budgets : List Budget) : List Tip :=
  budgets.flatMap (fun budget =>
    if assocGetD (tipsCategorySpending expenses) budget.category - budget.monthlyLimit > 0 then
      [{ impactYearly :=
           (assocGetD (tipsCategorySpending expenses) budget.category - budget.monthlyLimit) * 12
         confidenceScore := 0.9
         relatedCategory := budget.category
         actionType := TipAction.budgetOptimization
         suggestedReduction :=
           assocGetD (tipsCategorySpending expenses) budget.category - budget.monthlyLimit }]
    else [])

/-- `1000 * 60 * 60 * 24 * 30` milliseconds, the 30-day month used for
deadline arithmetic. -/
def monthMs : ℚ := 2592000000

def generateSavingsGoalTips (nowMs : ℚ) (expenses : List Expense)
    (savingsGoals : List SavingsGoal) : List Tip :=
  savingsGoals.flatMap (fun goal =>
    if (goal.targetAmount - goal.currentAmount) /
        (max 1 ((jsCeil ((goal.deadline - nowMs) / monthMs) : ℤ) : ℚ)) > 0 then
      [{ impactYearly :=
           min ((goal.targetAmount - goal.currentAmount) /
               (max 1 ((jsCeil ((goal.deadline - nowMs) / monthMs) : ℤ) : ℚ)))
             (getTotalMonthlySpending expenses * 0.1) * 12
         confidenceScore := 0.7
         relatedCategory := ExpenseCategory.other
         actionType := TipAction.increaseSavings
         suggestedReduction :=
           min ((goal.targetAmount - goal.currentAmount) /
               (max 1 ((jsCeil ((goal.deadline - nowMs) / monthMs) : ℤ) : ℚ)))
             (getTotalMonthlySpending expenses * 0.1) }]
    else [])

/-- Byte-wise comparison of character lists, standing in for
`String.prototype.localeCompare` on ASCII `YYYY-MM` keys. -/
def charListLe : List Char → List Char → Bool
  | [], _ => true
  | _ :: _, [] => false
  | a :: as, b :: bs =>
      if a.toNat < b.toNat then true
      else if b.toNat < a.toNat then false
      else charListLe as bs

def stringLe (a b : String) : Bool := charListLe a.data b.data

/-- `getMonthlyTrends`: per-month totals sorted by month key ascending. -/
def getMonthlyTrends (expenses : List Expense) : List (String × ℚ) :=
  List.insertionSort (fun a b => stringLe a.1 b.1 = true)
    (expenses.foldl (fun acc e => addToAssoc acc e.month e.amount) [])

def generateTrendTips (expenses : List Expense) : List Tip :=
  match (getMonthlyTrends expenses).reverse with
  | recent :: previous :: _ =>
      if recent.2 - previous.2 > 100 then
        [{ impactYearly := (recent.2 - previous.2) * 12
           confidenceScore := 0.6
           relatedCategory := ExpenseCategory.other
           actionType := TipAction.reduceSpending
           suggestedReduction := (recent.2 - previous.2) * 0.5 }]
      else []
  | _ => []

/-- The sort key `confidenceScore × impactYearly`. -/
def tipKey (t : Tip) : ℚ := t.confidenceScore * t.impactYearly

/-- The relation induced by the comparator
`(a, b) => b.confidenceScore * b.impactYearly - a.confidenceScore * a.impactYearly`:
`a` precedes `b` when its key is at least as large. -/
def tipRank (a b : Tip) : Prop := tipKey b ≤ tipKey a

instance : DecidableRel tipRank := fun a b =>
  inferInstanceAs (Decidable (tipKey b ≤ tipKey a))

instance : IsTotal Tip tipRank :=
  ⟨fun a b => le_total (tipKey b) (tipKey a)⟩

instance : IsTrans Tip tipRank :=
  ⟨fun _ _ _ hab hbc => le_trans hbc hab⟩

/-- Embedding of `generateTips`: filters to the last three months, combines the
four heuristics, sorts by `confidence × impact` descending, keeps the top 5,
and persists them (the second component is the replaced tips store). -/
def generateTips (nowMs : ℚ) (threeMonthsAgo : ℤ) (expenses : List Expense)
    (savingsGoals : List SavingsGoal) (budgets : List Budget) : List Tip × List Tip :=
  let recentExpenses := expenses.filter (fun e => decide (threeMonthsAgo ≤ e.date))
  let sortedTips :=
    (List.insertionSort tipRank
      (generateCategoryTips recentExpenses ++ generateBudgetTips recentExpenses budgets ++
        generateSavingsGoalTips nowMs recentExpenses savingsGoals ++
        generateTrendTips recentExpenses)).take 5
  (sortedTips, sortedTips)

/-- C6: every `generateTips` result has at most 5 tips, the product
`confidenceScore × impactYearly` is non-increasing along the returned list,
and the persisted tip store is exactly the returned list. -/
theorem C6_tips_ranking_and_cap (nowMs : ℚ) (threeMonthsAgo : ℤ) (expenses : List Expense)
    (savingsGoals : List SavingsGoal) (budgets : List Budget) :
    (generateTips nowMs threeMonthsAgo expenses savingsGoals budgets).1.length ≤ 5 ∧
    (generateTips nowMs threeMonthsAgo expenses savingsGoals budgets).1.Pairwise
      (fun a b => tipKey b ≤ tipKey a) ∧
    (generateTips nowMs threeMonthsAgo expenses savingsGoals budgets).2 =
      (generateTips nowMs threeMonthsAgo expenses savingsGoals budgets).1 := by
  refine ⟨?_, ?_, rfl⟩
  · exact List.length_take_le 5 _
  · have hs : (List.insertionSort tipRank
        (generateCategoryTips (expenses.filter (fun e => decide (threeMonthsAgo ≤ e.date))) ++
          generateBudgetTips (expenses.filter (fun e => decide (threeMonthsAgo ≤ e.date)))
            budgets ++
          generateSavingsGoalTips nowMs
            (expenses.filter (fun e => decide (threeMonthsAgo ≤ e.date))) savingsGoals ++
          generateTrendTips
            (expenses.filter (fun e => decide (threeMonthsAgo ≤ e.date))))).Sorted tipRank :=
      List.sorted_insertionSort tipRank _
    exact List.Pairwise.sublist (List.take_sublist 5 _) hs

/-! ## Enhanced AI advisor (`projectionService.ts`,
`EnhancedAIAdvisorService`).  The generators are embedded over the fields the
logic reads (priority, impact, type, category, timestamp); the presentation
strings (id, title, message, actionItems) are omitted.  `createdAt` ISO strings
are millisecond timestamps; the clock supplies the current and previous
`YYYY-MM` keys. -/

inductive Priority
  | high | medium | low
deriving Repr, DecidableEq

inductive AdviceType
  | spendingReduction | goalTimeline | budgetOptimization | categoryAnalysis
deriving Repr, DecidableEq

structure AdviceImpact where
  monthlySavings : ℚ
  yearlySavings : ℚ
  goalTimeReduction : Option ℚ
deriving Repr, DecidableEq

structure AIAdvice where
  type : AdviceType
  impact : AdviceImpact
  priority : Priority
  relatedCategory : Option ExpenseCategory
  createdAt : ℚ
deriving Repr, DecidableEq

structure AdvisorClock where
  nowMs : ℚ
  currentMonth : String
  previousMonth : String
deriving Repr, DecidableEq

/-- The collections `generateAdvice` reads: the advice cache plus expenses,
goals, budgets, and the current-month income total. -/
structure AdvisorState where
  storage : List AIAdvice
  expenses : List Expense
  goals : List SavingsGoal
  budgets : List Budget
  income : ℚ
deriving Repr, DecidableEq

/-- `aiAdviceStorage.add`: unshift, then keep only the latest 10. -/
def aiAdviceAdd (current : List AIAdvice) (advice : AIAdvice) : List AIAdvice :=
  (advice :: current).take 10

/-- `aiAdviceStorage.getLatest` (default limit 3). -/
def aiAdviceGetLatest (limit : ℕ) (store : List AIAdvice) : List AIAdvice :=
  store.take limit

def getMonthlyExpenses (month : String) (expenses : List Expense) : ℚ :=
  (expenses.filter (fun e => e.month = month)).foldl (fun sum e => sum + e.amount) 0

/-- `getCategorySpending` of the advisor: current-month totals per category in
key insertion order. -/
def advisorCategorySpending (month : String) (expenses : List Expense) :
    List (ExpenseCategory × ℚ) :=
  (expenses.filter (fun e => e.month = month)).foldl
    (fun acc e => addToAssoc acc e.category e.amount) []

def categoryBenchmark : ExpenseCategory → ℚ
  | ExpenseCategory.food => 0.15
  | ExpenseCategory.transport => 0.15
  | ExpenseCategory.entertainment => 0.05
  | ExpenseCategory.shopping => 0.05
  | ExpenseCategory.bills => 0.25
  | ExpenseCategory.healthcare => 0.05
  | ExpenseCategory.education => 0.05
  | ExpenseCategory.other => 0.05

def analyzeSpendingPatterns (clock : AdvisorClock) (expenses : List Expense)
    (income : ℚ) : List AIAdvice :=
  if getMonthlyExpenses clock.currentMonth expenses = 0 ∨ income = 0 then []
  else
    (if (income - getMonthlyExpenses clock.currentMonth expenses) / income * 100 < 20 then
      [{ type := AdviceType.spendingReduction
         impact := ⟨income * 0.2 - (income - getMonthlyExpenses clock.currentMonth expenses),
           (income * 0.2 - (income - getMonthlyExpenses clock.currentMonth expenses)) * 12,
           none⟩
         priority :=
           if (income - getMonthlyExpenses clock.currentMonth expenses) / income * 100 < 10
           then Priority.high else Priority.medium
         relatedCategory := none
         createdAt := clock.nowMs }]
    else []) ++
    (if getMonthlyExpenses clock.previousMonth expenses > 0 ∧
        getMonthlyExpenses clock.currentMonth expenses >
          getMonthlyExpenses clock.previousMonth expenses * 1.15 then
      [{ type := AdviceType.spendingReduction
         impact := ⟨(getMonthlyExpenses clock.currentMonth expenses -
             getMonthlyExpenses clock.previousMonth expenses) * 0.5,
           (getMonthlyExpenses clock.currentMonth expenses -
             getMonthlyExpenses clock.previousMonth expenses) * 0.5 * 12, none⟩
         priority := Priority.high
         relatedCategory := none
         createdAt := clock.nowMs }]
    else [])

/-- Per-goal body of `analyzeGoalProgress`.  In the ahead-of-schedule branch
with `remainingAmount = 0` the JS division yields `Infinity`; the rational
embedding totalizes division by zero to 0 there (the field is not read by any
verified property). -/
def goalProgressAdvice (clock : AdvisorClock) (currentMonthlySavings : ℚ)
    (goal : SavingsGoal) : List AIAdvice :=
  if (goal.targetAmount - goal.currentAmount) /
      (max 1 ((jsCeil ((goal.deadline - clock.nowMs) / monthMs) : ℤ) : ℚ)) >
      currentMonthlySavings then
    [{ type := AdviceType.goalTimeline
       impact := ⟨(goal.targetAmount - goal.currentAmount) /
           (max 1 ((jsCeil ((goal.deadline - clock.nowMs) / monthMs) : ℤ) : ℚ)) -
           currentMonthlySavings,
         ((goal.targetAmount - goal.currentAmount) /
           (max 1 ((jsCeil ((goal.deadline - clock.nowMs) / monthMs) : ℤ) : ℚ)) -
           currentMonthlySavings) * 12, some 0⟩
       priority :=
         if (max 1 ((jsCeil ((goal.deadline - clock.nowMs) / monthMs) : ℤ) : ℚ)) ≤ 6
         then Priority.high else Priority.medium
       relatedCategory := none
       createdAt := clock.nowMs }]
  else if currentMonthlySavings >
      (goal.targetAmount - goal.currentAmount) /
        (max 1 ((jsCeil ((goal.deadline - clock.nowMs) / monthMs) : ℤ) : ℚ)) * 1.2 then
    [{ type := AdviceType.goalTimeline
       impact := ⟨0, 0,
         some ((ratFloor ((currentMonthlySavings -
             (goal.targetAmount - goal.currentAmount) /
               (max 1 ((jsCeil ((goal.deadline - clock.nowMs) / monthMs) : ℤ) : ℚ))) *
             (max 1 ((jsCeil ((goal.deadline - clock.nowMs) / monthMs) : ℤ) : ℚ)) /
             (goal.targetAmount - goal.currentAmount) *
             (max 1 ((jsCeil ((goal.deadline - clock.nowMs) / monthMs) : ℤ) : ℚ))) : ℤ) : ℚ)⟩
       priority := Priority.low
       relatedCategory := none
       createdAt := clock.nowMs }]
  else []

def analyzeGoalProgress (clock : AdvisorClock) (goals : List SavingsGoal)
    (expenses : List Expense) (income : ℚ) : List AIAdvice :=
  if goals.length = 0 ∨ income = 0 then []
  else
    goals.flatMap (goalProgressAdvice clock
      (max 0 (income - getMonthlyExpenses clock.currentMonth expenses)))

def analyzeBudgetEfficiency (clock : AdvisorClock) (expenses : List Expense)
    (budgets : List Budget) (income : ℚ) : List AIAdvice :=
  if budgets.length = 0 ∨ income = 0 then []
  else
    (budgets.flatMap (fun budget =>
      if assocGetD (advisorCategorySpending clock.currentMonth expenses) budget.category -
          budget.monthlyLimit > 0 then
        [{ type := AdviceType.budgetOptimization
           impact := ⟨(assocGetD (advisorCategorySpending clock.currentMonth expenses)
               budget.category - budget.monthlyLimit) * 0.7,
             (assocGetD (advisorCategorySpending clock.currentMonth expenses)
               budget.category - budget.monthlyLimit) * 0.7 * 12, none⟩
           priority := Priority.high
           relatedCategory := some budget.category
           createdAt := clock.nowMs }]
      else [])) ++
    (if budgets.foldl (fun sum b => sum + b.monthlyLimit) 0 > income * 0.8 then
      [{ type := AdviceType.budgetOptimization
         impact := ⟨budgets.foldl (fun sum b => sum + b.monthlyLimit) 0 - income * 0.7,
           (budgets.foldl (fun sum b => sum + b.monthlyLimit) 0 - income * 0.7) * 12, none⟩
         priority := Priority.high
         relatedCategory := none
         createdAt := clock.nowMs }]
    else [])

def analyzeCategorySpending (clock : AdvisorClock) (expenses : List Expense)
    (income : ℚ) : List AIAdvice :=
  if (advisorCategorySpending clock.currentMonth expenses).foldl
      (fun sum p => sum + p.2) 0 = 0 ∨ income = 0 then []
  else
    (advisorCategorySpending clock.currentMonth expenses).flatMap (fun p =>
      if p.2 / income > categoryBenchmark p.1 * 1.5 then
        [{ type := AdviceType.categoryAnalysis
           impact := ⟨(p.2 - income * categoryBenchmark p.1) * 0.3,
             (p.2 - income * categoryBenchmark p.1) * 0.3 * 12, none⟩
           priority :=
             if p.2 / income > categoryBenchmark p.1 * 2 then Priority.high
             else Priority.medium
           relatedCategory := some p.1
           createdAt := clock.nowMs }]
      else [])

/-- Concatenation of the four analyzers in the push order of `generateAdvice`. -/
def generatedAdvice (clock : AdvisorClock) (st : AdvisorState) : List AIAdvice :=
  analyzeSpendingPatterns clock st.expenses st.income ++
  analyzeGoalProgress clock st.goals st.expenses st.income ++
  analyzeBudgetEfficiency clock st.expenses st.budgets st.income ++
  analyzeCategorySpending clock st.expenses st.income

def priorityWeight : Priority → ℕ
  | Priority.high => 3
  | Priority.medium => 2
  | Priority.low => 1

/-- The relation induced by the advice comparator: priority weight descending,
then `yearlySavings` descending. -/
def adviceRank (a b : AIAdvice) : Prop :=
  priorityWeight b.priority < priorityWeight a.priority ∨
    (priorityWeight a.priority = priorityWeight b.priority ∧
      b.impact.yearlySavings ≤ a.impact.yearlySavings)

instance : DecidableRel adviceRank := fun a b =>
  inferInstanceAs (Decidable (_ < _ ∨ (_ = _ ∧ _ ≤ _)))

instance : IsTotal AIAdvice adviceRank := by
  constructor
  intro a b
  rcases Nat.lt_trichotomy (priorityWeight a.priority) (priorityWeight b.priority) with h | h | h
  · exact Or.inr (Or.inl h)
  · rcases le_total a.impact.yearlySavings b.impact.yearlySavings with hy | hy
    · exact Or.inr (Or.inr ⟨h.symm, hy⟩)
    · exact Or.inl (Or.inr ⟨h, hy⟩)
  · exact Or.inl (Or.inl h)

instance : IsTrans AIAdvice adviceRank := by
  constructor
  intro a b c hab hbc
  rcases hab with h1 | ⟨e1, y1⟩
  · rcases hbc with h2 | ⟨e2, y2⟩
    · exact Or.inl (lt_trans h2 h1)
    · exact Or.inl (e2 ▸ h1)
  · rcases hbc with h2 | ⟨e2, y2⟩
    · exact Or.inl (e1 ▸ h2)
    · exact Or.inr ⟨e1.trans e2, le_trans y2 y1⟩

/-- The single onboarding advice item (`generateOnboardingAdvice`). -/
def onboardingAdvice (nowMs : ℚ) : AIAdvice :=
  { type := AdviceType.budgetOptimization
    impact := ⟨0, 0, none⟩
    priority := Priority.medium
    relatedCategory := none
    createdAt := nowMs }

/-- The non-cached tail of `generateAdvice`: onboarding fallback when both
expenses and goals are empty (returned without caching), otherwise generate,
sort, cap at 5, and rebuild the cache via `clear` + repeated `add`. -/
def generateAdviceFresh (clock : AdvisorClock) (st : AdvisorState) :
    List AIAdvice × List AIAdvice :=
  if st.expenses.length = 0 ∧ st.goals.length = 0 then
    ([onboardingAdvice clock.nowMs], st.storage)
  else
    ((List.insertionSort adviceRank (generatedAdvice clock st)).take 5,
     ((List.insertionSort adviceRank (generatedAdvice clock st)).take 5).foldl aiAdviceAdd [])

/-- Embedding of `EnhancedAIAdvisorService.generateAdvice`: returns the pair of
(returned advice list, advice storage after the call). -/
def generateAdvice (forceRefresh : Bool) (clock : AdvisorClock) (st : AdvisorState) :
    List AIAdvice × List AIAdvice :=
  match forceRefresh with
  | true => generateAdviceFresh clock st
  | false =>
    match aiAdviceGetLatest 3 st.storage with
    | [] => generateAdviceFresh clock st
    | latestAdvice :: rest =>
        if clock.nowMs - 3600000 < latestAdvice.createdAt then
          (latestAdvice :: rest, st.storage)
        else generateAdviceFresh clock st

theorem generateAdvice_cache_miss (forceRefresh : Bool) (clock : AdvisorClock)
    (st : AdvisorState)
    (hnocache : forceRefresh = true ∨ st.storage = [] ∨
      ∀ latest rest, st.storage = latest :: rest →
        latest.createdAt ≤ clock.nowMs - 3600000) :
    generateAdvice forceRefresh clock st = generateAdviceFresh clock st := by
  cases forceRefresh with
  | true => rfl
  | false =>
    rcases hnocache with hcase | hcase | hcase
    · cases hcase
    · unfold generateAdvice aiAdviceGetLatest
      rw [hcase]
      rfl
    · unfold generateAdvice aiAdviceGetLatest
      cases hs : st.storage with
      | nil => rfl
      | cons latest rest =>
        rw [List.take_succ_cons]
        simp only
        rw [if_neg (not_lt.mpr (hcase latest rest hs))]

theorem foldl_aiAdviceAdd (l : List AIAdvice) :
    ∀ s : List AIAdvice, l.length + s.length ≤ 10 → l.foldl aiAdviceAdd s = l.reverse ++ s := by
  induction l with
  | nil => intro s _; simp
  | cons a rest ih =>
    intro s hlen
    simp only [List.foldl_cons]
    have hadd : aiAdviceAdd s a = a :: s := by
      unfold aiAdviceAdd
      apply List.take_of_length_le
      simp only [List.length_cons]
      simp only [List.length_cons] at hlen
      omega
    rw [hadd, ih (a :: s) (by simp only [List.length_cons] at hlen ⊢; omega)]
    simp

/-- Clock used by the C2 counterexample. -/
def staleCheckClock : AdvisorClock := ⟨1000, "2026-10", "2026-09"⟩

/-- A four-entry advice cache whose most recent entry is fresh. -/
def fourEntryCache : AdvisorState :=
  ⟨[onboardingAdvice 1000, onboardingAdvice 999, onboardingAdvice 998, onboardingAdvice 997],
    [], [], [], 0⟩

/-- C2 (counterexample): the claim says the cached path surfaces the top 5
entries, but `getLatest()` defaults to limit 3: with four fresh cached entries
`generateAdvice(false)` returns only 3 of them. -/
theorem C2_cached_returns_three_counterexample :
    fourEntryCache.storage.length = 4 ∧
    staleCheckClock.nowMs - 3600000 < (onboardingAdvice 1000).createdAt ∧
    (generateAdvice false staleCheckClock fourEntryCache).1.length = 3 := by
  refine ⟨rfl, by norm_num [onboardingAdvice, staleCheckClock], ?_⟩
  norm_num [generateAdvice, aiAdviceGetLatest, fourEntryCache, staleCheckClock, onboardingAdvice]

/-- C2 (amended): with `forceRefresh = false` and a most recent cache entry
younger than one hour, `generateAdvice` returns the cached `getLatest` slice —
the first **3** stored entries, not 5 — without modifying storage; on
regeneration (force refresh or stale cache, with data present) the cache is
fully replaced, not merged: the returned list is the top 5 generated advice
items ordered by priority weight then `yearlySavings` descending, storage holds
exactly those items (in reverse insertion order, because `add` unshifts), and a
single `add` never lets storage exceed 10 entries. -/
theorem C2_advice_caching (forceRefresh : Bool) (clock : AdvisorClock) (st : AdvisorState) :
    (∀ latest rest, st.storage = latest :: rest →
      clock.nowMs - 3600000 < latest.createdAt →
      generateAdvice false clock st = (aiAdviceGetLatest 3 st.storage, st.storage)) ∧
    (¬ (st.expenses.length = 0 ∧ st.goals.length = 0) →
      (forceRefresh = true ∨ st.storage = [] ∨
        ∀ latest rest, st.storage = latest :: rest →
          latest.createdAt ≤ clock.nowMs - 3600000) →
      generateAdvice forceRefresh clock st =
        ((List.insertionSort adviceRank (generatedAdvice clock st)).take 5,
          ((List.insertionSort adviceRank (generatedAdvice clock st)).take 5).reverse) ∧
      ((List.insertionSort adviceRank (generatedAdvice clock st)).take 5).Pairwise
        adviceRank ∧
      ((List.insertionSort adviceRank (generatedAdvice clock st)).take 5).length ≤ 5) ∧
    (∀ (s : List AIAdvice) (a : AIAdvice), (aiAdviceAdd s a).length ≤ 10) := by
  refine ⟨?_, ?_, ?_⟩
  · intro latest rest hs hfresh
    unfold generateAdvice aiAdviceGetLatest
    rw [hs, List.take_succ_cons]
    simp only
    rw [if_pos hfresh]
  · intro hne hmiss
    rw [generateAdvice_cache_miss forceRefresh clock st hmiss]
    unfold generateAdviceFresh
    rw [if_neg hne]
    refine ⟨?_, ?_, List.length_take_le 5 _⟩
    · have hrev := foldl_aiAdviceAdd
        ((List.insertionSort adviceRank (generatedAdvice clock st)).take 5) []
        (by have := List.length_take_le 5
              (List.insertionSort adviceRank (generatedAdvice clock st))
            simp only [List.length_nil]
            omega)
      rw [hrev]
      simp
    · exact List.Pairwise.sublist (List.take_sublist 5 _)
        (List.sorted_insertionSort adviceRank _)
  · intro s a
    unfold aiAdviceAdd
    exact List.length_take_le 10 _

/-- Clock used by the C2 and C9 witnesses. -/
def adviceWitnessClock : AdvisorClock := ⟨5000, "2026-10", "2026-09"⟩

/-- State with one fresh cached entry, for the C2 witness. -/
def freshCacheState : AdvisorState := ⟨[onboardingAdvice 4000], [], [], [], 0⟩

/-- State with one goal (and zero income, so all analyzers bail out), for the
C2 witness regeneration path. -/
def oneGoalState : AdvisorState :=
  ⟨[], [], [⟨"g", "goal", 100, 0, 0, GoalCategory.other⟩], [], 0⟩

/-- Witness for C2: the fresh-cache path returns the stored entry unchanged,
and a forced regeneration on a state whose analyzers produce nothing replaces
the cache with the empty top-5 list. -/
theorem C2_advice_caching_witness :
    generateAdvice false adviceWitnessClock freshCacheState =
      ([onboardingAdvice 4000], [onboardingAdvice 4000]) ∧
    generateAdvice true adviceWitnessClock oneGoalState = ([], []) := by
  constructor
  · have h := (C2_advice_caching false adviceWitnessClock freshCacheState).1
      (onboardingAdvice 4000) [] rfl
      (by norm_num [onboardingAdvice, adviceWitnessClock])
    rw [h]
    rfl
  · have h := ((C2_advice_caching true adviceWitnessClock oneGoalState).2.1
      (by simp [oneGoalState]) (Or.inl rfl)).1
    rw [h]
    norm_num [generatedAdvice, oneGoalState, adviceWitnessClock, analyzeSpendingPatterns,
      analyzeGoalProgress, analyzeBudgetEfficiency, analyzeCategorySpending,
      getMonthlyExpenses, advisorCategorySpending, List.insertionSort]

/-- C9: with both the expenses and goals collections empty and the cache not
short-circuiting the call, `generateAdvice` returns exactly one onboarding
advice item — zero monthly and yearly savings impact, medium priority — and
does not write it to the advice cache. -/
theorem C9_onboarding_fallback (forceRefresh : Bool) (clock : AdvisorClock)
    (st : AdvisorState) (hexp : st.expenses = []) (hgoals : st.goals = [])
    (hnocache : forceRefresh = true ∨ st.storage = [] ∨
      ∀ latest rest, st.storage = latest :: rest →
        latest.createdAt ≤ clock.nowMs - 3600000) :
    generateAdvice forceRefresh clock st = ([onboardingAdvice clock.nowMs], st.storage) ∧
    (onboardingAdvice clock.nowMs).impact.monthlySavings = 0 ∧
    (onboardingAdvice clock.nowMs).impact.yearlySavings = 0 ∧
    (onboardingAdvice clock.nowMs).priority = Priority.medium := by
  refine ⟨?_, rfl, rfl, rfl⟩
  rw [generateAdvice_cache_miss forceRefresh clock st hnocache]
  unfold generateAdviceFresh
  rw [if_pos ⟨by rw [hexp]; rfl, by rw [hgoals]; rfl⟩]

/-- Witness for C9: an empty state with a forced refresh yields the single
onboarding item and leaves the (empty) cache untouched. -/
theorem C9_onboarding_fallback_witness :
    generateAdvice true adviceWitnessClock ⟨[], [], [], [], 0⟩ =
      ([onboardingAdvice 5000], []) :=
  (C9_onboarding_fallback true adviceWitnessClock ⟨[], [], [], [], 0⟩ rfl rfl
    (Or.inl rfl)).1

end SmartSaver
